import Mathlib

/-
Shallow embedding of the rootly-glean-connector sync pipeline.

The definitions below are translated from the Python source of the
repository:

* `fetch_paginated_data` / `fetchLoop` embed
  `RootlyDataFetcher.fetch_paginated_data` (src/data_fetchers/base.py,
  lines 36-85).  The HTTP request `_make_request(endpoint, params)` is
  abstracted as a function `req : Nat -> Nat -> Except String (List α)`
  taking the requested page size (the `page[size]` param) and the page
  number (the `page[number]` param) and returning either the `data` list
  of the JSON payload (`payload.get("data", [])`) or an error (a raised
  `requests` exception).  The `updated_after` filter only adds a request
  parameter and is part of the `req` closure.  The request log records,
  for each request made, the requested size, the page number and
  `len(all_items)` at the moment the params were computed, so that the
  page-size shrinking behaviour can be stated.

* `dedupById`, `syncAllDataTypes` embed
  `SyncCoordinator.sync_all_data_types` (src/processors/sync_coordinator.py,
  lines 62-134).  The per-type pipeline `_sync_data_type` (fetch + map) is
  abstracted per entity type as `pipeline : Except String (List DocFields)`:
  a thrown exception is `Except.error (str e)`.  The Python results dict
  (insertion ordered, per-type keys first, then the `summary` key) is
  modelled as the ordered list `results` plus the separate `summary` field.

* `mapRecords` embeds the conversion loop of
  `SyncCoordinator._sync_data_type` (lines 165-184).

* The document mappers and `_create_base_document` / `_extract_timestamps`
  (src/document_mappers/*.py) are embedded further below.

Python truthiness conventions used throughout: `None` and the empty string
are falsy (`strTruthy`), an absent or empty (falsy) `attributes` dict is
modelled as `Option.none`, and integer `max_items = 0` is falsy.
-/

set_option autoImplicit false

namespace RootlyGlean

/-! ## Paginated fetcher (src/data_fetchers/base.py) -/

/-- One entry of the request log: the `page[size]` and `page[number]`
params of one `_make_request` call, together with `len(all_items)` at the
moment the params were computed. -/
structure PageRequest where
  size : Nat
  page : Nat
  accBefore : Nat
  deriving DecidableEq, Repr

/-- The hardcoded safety limit `max_pages = 10` (base.py line 46). -/
def max_pages : Nat := 10

/-- Python line 49: `if max_items and len(all_items) >= max_items` -- the
cap-reached stop check; `max_items` must be truthy (present and nonzero). -/
def maxReached (maxItems : Option Nat) (len : Nat) : Bool :=
  match maxItems with
  | some m => m != 0 && decide (m ≤ len)
  | none => false

/-- Python lines 53-64: the requested `page[size]`, first set to
`items_per_page` and then shrunk to `min(items_per_page, remaining_slots)`
whenever `max_items` is truthy. -/
def pageSize (maxItems : Option Nat) (ips len : Nat) : Nat :=
  match maxItems with
  | some m => if m != 0 then min ips (m - len) else ips
  | none => ips

/-- The `while page <= max_pages` loop of `fetch_paginated_data`
(base.py lines 48-82), as fuel recursion: `fuel` is the number of page
numbers still allowed by the `page <= max_pages` condition, so the loop is
entered with `fuel = max_pages` and `page = 1`.  Returns the accumulated
`all_items` together with the log of requests made. -/
def fetchLoop {α : Type} (req : Nat → Nat → Except String (List α))
    (maxItems : Option Nat) (ips : Nat) :
    Nat → Nat → List α → List PageRequest → List α × List PageRequest
  | 0, _, acc, log => (acc, log)
  | fuel + 1, page, acc, log =>
    if maxReached maxItems acc.length then (acc, log)
    else
      let size := pageSize maxItems ips acc.length
      let log' := log ++ [⟨size, page, acc.length⟩]
      match req size page with
      | Except.error _ => (acc, log')
      | Except.ok items =>
        if items.isEmpty then (acc, log')
        else fetchLoop req maxItems ips fuel (page + 1) (acc ++ items) log'

/-- `RootlyDataFetcher.fetch_paginated_data` (base.py lines 36-85): run the
page loop, then `return all_items[:max_items] if max_items else all_items`. -/
def fetch_paginated_data {α : Type} (req : Nat → Nat → Except String (List α))
    (maxItems : Option Nat) (ips : Nat) : List α :=
  let r := fetchLoop req maxItems ips max_pages 1 [] []
  match maxItems with
  | some m => if m != 0 then r.1.take m else r.1
  | none => r.1

/-- Concatenation of the contents of `count` consecutive pages starting at
page `start` (used to state what a paginated fetch should return). -/
def concatPages {α : Type} (pages : Nat → List α) (start : Nat) : Nat → List α
  | 0 => []
  | n + 1 => pages start ++ concatPages pages (start + 1) n

/-! ## Timestamp parsing (src/document_mappers/base.py, lines 48-67)

`BaseDocumentMapper._extract_timestamps` runs
`int(dtparse.isoparse(ts_value).timestamp())` per field.  The functions
below embed `dateutil.parser.isoparse` followed by `datetime.timestamp()`
and `int(...)` on the common ISO-8601 subset
`YYYY-MM-DD[THH[:MM[:SS[.digits]]]][Z|+HH:MM|-HH:MM|+HHMM|-HHMM]`.
Model assumptions: the process-local timezone (used by `timestamp()` for
naive datetimes, i.e. strings without an offset) is UTC, and `int()`
truncates the float timestamp toward zero. -/

/-- Value of an ASCII digit character, `none` for a non-digit. -/
def digitVal (c : Char) : Option Nat :=
  if c.isDigit then some (c.toNat - 48) else none

/-- Read exactly `n` digit characters, most significant first. -/
def readDigits : Nat → Nat → List Char → Option (Nat × List Char)
  | 0, acc, cs => some (acc, cs)
  | n + 1, acc, cs =>
    match cs with
    | [] => none
    | c :: rest =>
      match digitVal c with
      | some d => readDigits n (acc * 10 + d) rest
      | none => none

/-- Take all leading digit characters (used for fractional seconds). -/
def takeDigits : List Char → List Nat × List Char
  | [] => ([], [])
  | c :: rest =>
    match digitVal c with
    | some d => let r := takeDigits rest; (d :: r.1, r.2)
    | none => ([], c :: rest)

/-- Gregorian leap-year rule, as validated by Python `datetime`. -/
def isLeapYear (y : Nat) : Bool :=
  (y % 4 == 0 && y % 100 != 0) || y % 400 == 0

/-- Number of days in month `m` of year `y`. -/
def daysInMonth (y m : Nat) : Nat :=
  if m = 2 then (if isLeapYear y then 29 else 28)
  else if m = 4 ∨ m = 6 ∨ m = 9 ∨ m = 11 then 30
  else 31

/-- Days from 1970-01-01 to the civil date `y-m-d` (valid Gregorian date,
`y ≥ 1`), by the standard era decomposition. -/
def civilDays (y m d : Nat) : Int :=
  let yAdj := if m ≤ 2 then y - 1 else y
  let era := yAdj / 400
  let yoe := yAdj % 400
  let mp := if 2 < m then m - 3 else m + 9
  let doy := (153 * mp + 2) / 5 + (d - 1)
  let doe := yoe * 365 + yoe / 4 - yoe / 100 + doy
  (era * 146097 + doe : Int) - 719468

/-- Parsed clock time: whole fields plus whether a nonzero fractional
second was present (it decides the direction of `int()` truncation). -/
structure ClockTime where
  hour : Nat
  minute : Nat
  second : Nat
  fracNonzero : Bool
  deriving DecidableEq, Repr

/-- Parse `HH[:MM[:SS[.digits]]]` (the time part accepted by `isoparse`,
colon-separated subset). -/
def parseClock (cs : List Char) : Option (ClockTime × List Char) :=
  match readDigits 2 0 cs with
  | none => none
  | some (h, rest) =>
    if 23 < h then none
    else
      match rest with
      | ':' :: rest2 =>
        match readDigits 2 0 rest2 with
        | none => none
        | some (mi, rest3) =>
          if 59 < mi then none
          else
            match rest3 with
            | ':' :: rest4 =>
              match readDigits 2 0 rest4 with
              | none => none
              | some (s, rest5) =>
                if 59 < s then none
                else
                  match rest5 with
                  | '.' :: rest6 =>
                    match takeDigits rest6 with
                    | ([], _) => none
                    | (ds, rest7) =>
                      some (⟨h, mi, s, decide (ds.any (fun d => d ≠ 0))⟩, rest7)
                  | _ => some (⟨h, mi, s, false⟩, rest5)
            | _ => some (⟨h, mi, 0, false⟩, rest3)
      | _ => some (⟨h, 0, 0, false⟩, rest)

/-- Parse a trailing UTC offset `Z`, `±HH:MM` or `±HHMM`; returns the
offset in seconds.  `datetime.timezone` requires the offset to be strictly
within one day. -/
def parseOffset (cs : List Char) : Option (Int × List Char) :=
  match cs with
  | ['Z'] => some (0, [])
  | sign :: rest =>
    if sign = '+' ∨ sign = '-' then
      match readDigits 2 0 rest with
      | none => none
      | some (h, rest2) =>
        let cont := fun (mi : Nat) (rest3 : List Char) =>
          if 23 < h ∨ 59 < mi then none
          else
            let secs : Int := (h * 3600 + mi * 60 : Nat)
            some (if sign = '-' then -secs else secs, rest3)
        match rest2 with
        | ':' :: rest3 =>
          match readDigits 2 0 rest3 with
          | none => none
          | some (mi, rest4) => cont mi rest4
        | _ :: _ =>
          match readDigits 2 0 rest2 with
          | none => none
          | some (mi, rest4) => cont mi rest4
        | [] => cont 0 []
    else none
  | [] => none

/-- Python `int()` applied to `whole + frac` where `0 ≤ frac < 1`:
truncation toward zero. -/
def pyIntTrunc (whole : Int) (fracNonzero : Bool) : Int :=
  if whole < 0 && fracNonzero then whole + 1 else whole

/-- Embeds `int(dtparse.isoparse(s).timestamp())`: parse the ISO-8601
subset described above and convert to integer epoch seconds; `none` models
a raised `ValueError`/`TypeError`. -/
def isoparse_timestamp (s : String) : Option Int :=
  match readDigits 4 0 s.data with
  | none => none
  | some (y, r1) =>
    if y = 0 then none
    else
      match r1 with
      | '-' :: r2 =>
        match readDigits 2 0 r2 with
        | none => none
        | some (m, r3) =>
          if m = 0 ∨ 12 < m then none
          else
            match r3 with
            | '-' :: r4 =>
              match readDigits 2 0 r4 with
              | none => none
              | some (d, r5) =>
                if d = 0 ∨ daysInMonth y m < d then none
                else
                  let dayEpoch : Int := 86400 * civilDays y m d
                  match r5 with
                  | [] => some dayEpoch
                  | 'T' :: r6 =>
                    match parseClock r6 with
                    | none => none
                    | some (t, r7) =>
                      let whole : Int :=
                        dayEpoch + (t.hour * 3600 + t.minute * 60 + t.second : Nat)
                      match r7 with
                      | [] => some (pyIntTrunc whole t.fracNonzero)
                      | _ =>
                        match parseOffset r7 with
                        | some (off, []) => some (pyIntTrunc (whole - off) t.fracNonzero)
                        | _ => none
                  | _ => none
            | _ => none
      | _ => none

/-- One iteration of the field loop of `_extract_timestamps` (base.py
lines 60-65): the walrus `if ts_value := attributes.get(api_field)` skips
absent or falsy (empty) values, then the parse failure is caught and the
field omitted. -/
def parseTsField (v : Option String) : Option Int :=
  match v with
  | none => none
  | some s => if s = "" then none else isoparse_timestamp s

/-- The timestamps dictionary built by `_extract_timestamps`. -/
structure Timestamps where
  created_at : Option Int
  updated_at : Option Int
  deriving DecidableEq, Repr

/-- `BaseDocumentMapper._extract_timestamps` (base.py lines 48-67): the
loop runs over the two fields `created_at` and `updated_at`. -/
def extract_timestamps (created_at updated_at : Option String) : Timestamps :=
  { created_at := parseTsField created_at, updated_at := parseTsField updated_at }

/-! ## Shared document construction (src/document_mappers/base.py) -/

/-- Python truthiness of an optional string value: `None` and the empty
string are falsy.  Models `if v := attributes.get(key)` walrus guards. -/
def strTruthy (v : Option String) : Option String :=
  match v with
  | some s => if s = "" then none else some s
  | none => none

/-- Python `a or b` on two optional strings: the first truthy value wins,
otherwise the second value is returned as is. -/
def pyStrOr (a b : Option String) : Option String :=
  match strTruthy a with
  | some s => some s
  | none => b

/-- Python `d.get(k1, d.get(k2))`: the value at `k1` when that key is
present, else the value at `k2` (`none` models an absent key). -/
def pyGetOr (a b : Option String) : Option String :=
  match a with
  | some x => some x
  | none => b

/-- First truthy value of a list of optional strings (a Python `or`
chain). -/
def firstTruthy : List (Option String) → Option String
  | [] => none
  | v :: rest =>
    match strTruthy v with
    | some s => some s
    | none => firstTruthy rest

/-- The `permissions` block of a base document (base.py line 110). -/
structure Permissions where
  allow_anonymous_access : Bool
  deriving DecidableEq, Repr

/-- The `doc_fields` dictionary built by the mappers.  The body / summary
/ author content fields are not modelled: no claim mentions them and on
well-typed records their construction cannot fail.  `status = none`,
`created_at = none`, `updated_at = none` model keys absent from the
dictionary; `tags = []` models an absent tags key (`setdefault` makes the
two indistinguishable downstream). -/
structure DocFields where
  id : String
  datasource : String
  title : String
  object_type : String
  permissions : Permissions
  view_url : String
  status : Option String
  tags : List String
  created_at : Option Int
  updated_at : Option Int
  deriving DecidableEq, Repr

/-- The configured `glean.datasource_name` value; the configuration is
loaded once at process start and immutable for the run, so it is modelled
as a fixed string. -/
def datasource_name : String := "rootly"

/-- The `type_mapping` lookup with its `object_type.lower() + "s"`
fallback (base.py lines 120-126). -/
def typePlural (object_type : String) : String :=
  if object_type = "Incident" then "incidents"
  else if object_type = "Alert" then "alerts"
  else if object_type = "Schedule" then "schedules"
  else if object_type = "EscalationPolicy" then "escalation_policies"
  else object_type.toLower ++ "s"

/-- The generated default URL (base.py line 127). -/
def defaultViewUrl (object_type item_id : String) : String :=
  "https://rootly.com/account/" ++ typePlural object_type ++ "/" ++ item_id

/-- `BaseDocumentMapper._create_base_document` (base.py lines 85-130):
identity fields, anonymous-access permission, and the view URL -- the
given one when `view_url and view_url.strip()` is truthy, else the
generated default. -/
def create_base_document (item_id object_type title : String)
    (view_url : Option String) : DocFields :=
  let url :=
    match view_url with
    | some u => if u ≠ "" ∧ u.trim ≠ "" then u else defaultViewUrl object_type item_id
    | none => defaultViewUrl object_type item_id
  { id := item_id
    datasource := datasource_name
    title := title
    object_type := object_type
    permissions := { allow_anonymous_access := true }
    view_url := url
    status := none
    tags := []
    created_at := none
    updated_at := none }

/-! ## Incident mapper (src/document_mappers/incident_mapper.py)

Raw records are the loosely structured JSON dictionaries of the Rootly
API.  `Option.none` for `id` models a record without an `id` key (then
`incident["id"]` raises `KeyError`, which the surrounding `except` turns
into a `None` return); `Option.none` for `attributes` models a record
whose `attributes` block is absent or empty (both falsy, the
`if not attributes` guard treats them alike). -/

/-- The `severity.data.attributes` block: `severity = some sa` models the
case where `attributes['severity']` is a dict whose `data.attributes`
path yields a truthy dict (incident_mapper.py line 74); every other shape
is `none`. -/
structure SeverityAttrs where
  name : Option String
  deriving DecidableEq, Repr

/-- The attribute fields of an incident record read by the mapper. -/
structure IncidentAttrs where
  title : Option String
  sequential_id : Option Nat
  status : Option String
  url : Option String
  kind : Option String
  summary : Option String
  severity : Option SeverityAttrs
  created_at : Option String
  updated_at : Option String
  deriving DecidableEq, Repr

/-- A raw incident record. -/
structure IncidentRecord where
  id : Option String
  attributes : Option IncidentAttrs
  deriving DecidableEq, Repr

/-- Rendering of `attributes.get('sequential_id', 'N/A')` inside the
title f-string. -/
def seqIdStr (v : Option Nat) : String :=
  match v with
  | some n => toString n
  | none => "N/A"

/-- The incident title template (incident_mapper.py line 40). -/
def incidentTitle (a : IncidentAttrs) : String :=
  "[INC-" ++ seqIdStr a.sequential_id ++ "] " ++ a.title.getD "No Title"

/-- `_add_status_and_tags` tag contribution (incident_mapper.py 65-69). -/
def incidentStatusTags (a : IncidentAttrs) : List String :=
  match strTruthy a.status with
  | some s => ["status:" ++ s]
  | none => []

/-- `_add_severity_data` tag contribution (incident_mapper.py 71-77). -/
def incidentSeverityTags (a : IncidentAttrs) : List String :=
  match a.severity with
  | some sa =>
    match sa.name with
    | some n => if n ≠ "" ∧ n ≠ "Unknown" then ["severity:" ++ n] else []
    | none => []
  | none => []

/-- `_add_kind_tag` tag contribution (incident_mapper.py 79-82). -/
def incidentKindTags (a : IncidentAttrs) : List String :=
  match strTruthy a.kind with
  | some k => ["kind:" ++ k]
  | none => []

/-- `incident_to_doc` / `IncidentDocumentMapper.convert`
(incident_mapper.py lines 14-63): missing attributes -> `None`; missing
id -> caught `KeyError` -> `None`; otherwise the base document plus
status, tags (appended in source order: status, severity, kind) and
timestamps. -/
def incident_to_doc (r : IncidentRecord) : Option DocFields :=
  match r.attributes with
  | none => none
  | some a =>
    match r.id with
    | none => none
    | some i =>
      let base := create_base_document i "Incident" (incidentTitle a) a.url
      let ts := extract_timestamps a.created_at a.updated_at
      some { base with
        status := strTruthy a.status
        tags := incidentStatusTags a ++ incidentSeverityTags a ++ incidentKindTags a
        created_at := ts.created_at
        updated_at := ts.updated_at }

/-! ## Alert mapper (src/document_mappers/alert_mapper.py) -/

/-- The nested `attributes['data']` dict of an alert; `none` models an
absent or non-dict value (the `isinstance(..., dict)` guards). -/
structure AlertData where
  title : Option String
  summary : Option String
  deriving DecidableEq, Repr

/-- The attribute fields of an alert record read by the mapper. -/
structure AlertAttrs where
  summary : Option String
  title : Option String
  name : Option String
  data : Option AlertData
  description : Option String
  status : Option String
  priority : Option String
  severity : Option String
  source : Option String
  source_type : Option String
  url : Option String
  created_at : Option String
  updated_at : Option String
  deriving DecidableEq, Repr

/-- A raw alert record. -/
structure AlertRecord where
  id : Option String
  attributes : Option AlertAttrs
  deriving DecidableEq, Repr

/-- The description-based title fallback (alert_mapper.py line 55):
`description.strip()[:50] + '...'` when the stripped description is
truthy. -/
def alertDescTitle (a : AlertAttrs) : Option String :=
  let d := (a.description.getD "").trim
  if d ≠ "" then some (d.take 50 ++ "...") else none

/-- The best-effort alert title `or` chain (alert_mapper.py lines 49-58). -/
def alertTitle (rid : Option String) (a : AlertAttrs) : String :=
  "[ALERT] " ++
    (firstTruthy
      [a.summary, a.title, a.name, a.data.bind AlertData.title,
        a.data.bind AlertData.summary, alertDescTitle a]).getD
      ("Alert " ++ rid.getD "Unknown")

/-- `_add_alert_status` tag contribution (alert_mapper.py 83-87). -/
def alertStatusTags (a : AlertAttrs) : List String :=
  match strTruthy a.status with
  | some s => ["alert_status:" ++ s]
  | none => []

/-- `_add_alert_priority` tag contribution (alert_mapper.py 89-92). -/
def alertPriorityTags (a : AlertAttrs) : List String :=
  match strTruthy (pyGetOr a.priority a.severity) with
  | some p => ["priority:" ++ p]
  | none => []

/-- `_add_alert_source` tag contribution (alert_mapper.py 94-97). -/
def alertSourceTags (a : AlertAttrs) : List String :=
  match strTruthy (pyGetOr a.source a.source_type) with
  | some s => ["source:" ++ s]
  | none => []

/-- `alert_to_doc` / `AlertDocumentMapper.convert` (alert_mapper.py
lines 13-81). -/
def alert_to_doc (r : AlertRecord) : Option DocFields :=
  match r.attributes with
  | none => none
  | some a =>
    match r.id with
    | none => none
    | some i =>
      let base := create_base_document i "Alert" (alertTitle r.id a) a.url
      let ts := extract_timestamps a.created_at a.updated_at
      some { base with
        status := strTruthy a.status
        tags := alertStatusTags a ++ alertPriorityTags a ++ alertSourceTags a
        created_at := ts.created_at
        updated_at := ts.updated_at }

/-! ## Schedule mapper (src/document_mappers/schedule_mapper.py) -/

/-- The attribute fields of a schedule record read by the mapper
(`stype` stands for the `type` key). -/
structure ScheduleAttrs where
  name : Option String
  schedule_type : Option String
  stype : Option String
  status : Option String
  team : Option String
  owner : Option String
  url : Option String
  created_at : Option String
  updated_at : Option String
  deriving DecidableEq, Repr

/-- A raw schedule record. -/
structure ScheduleRecord where
  id : Option String
  attributes : Option ScheduleAttrs
  deriving DecidableEq, Repr

/-- `_add_schedule_type` tag contribution (schedule_mapper.py 63-66). -/
def scheduleTypeTags (a : ScheduleAttrs) : List String :=
  match strTruthy (pyGetOr a.schedule_type a.stype) with
  | some t => ["schedule_type:" ++ t]
  | none => []

/-- `_add_schedule_status` tag contribution (schedule_mapper.py 68-72). -/
def scheduleStatusTags (a : ScheduleAttrs) : List String :=
  match strTruthy a.status with
  | some s => ["status:" ++ s]
  | none => []

/-- `_add_team_info` tag contribution (schedule_mapper.py 74-80). -/
def scheduleTeamTags (a : ScheduleAttrs) : List String :=
  (match strTruthy a.team with
    | some t => ["team:" ++ t]
    | none => []) ++
  (match strTruthy a.owner with
    | some o => ["owner:" ++ o]
    | none => [])

/-- `schedule_to_doc` / `ScheduleDocumentMapper.convert`
(schedule_mapper.py lines 13-61); the schedule content section
(`_add_schedule_content`) is not modelled. -/
def schedule_to_doc (r : ScheduleRecord) : Option DocFields :=
  match r.attributes with
  | none => none
  | some a =>
    match r.id with
    | none => none
    | some i =>
      let base := create_base_document i "Schedule"
        ("[SCHEDULE] " ++ a.name.getD "No Name") a.url
      let ts := extract_timestamps a.created_at a.updated_at
      some { base with
        status := strTruthy a.status
        tags := scheduleTypeTags a ++ scheduleStatusTags a ++ scheduleTeamTags a
        created_at := ts.created_at
        updated_at := ts.updated_at }

/-! ## Escalation policy mapper
(src/document_mappers/escalation_policy_mapper.py) -/

/-- The attribute fields of an escalation policy record read by the
mapper. -/
structure PolicyAttrs where
  name : Option String
  status : Option String
  team : Option String
  url : Option String
  created_at : Option String
  updated_at : Option String
  deriving DecidableEq, Repr

/-- A raw escalation policy record; `relStepIds` is the list of the `id`
values of `relationships.escalation_steps.data` (each `none` when the
step dict has no truthy id). -/
structure PolicyRecord where
  id : Option String
  attributes : Option PolicyAttrs
  relStepIds : List (Option String)
  deriving DecidableEq, Repr

/-- `_add_policy_status` tag contribution (escalation_policy_mapper.py
63-67). -/
def policyStatusTags (a : PolicyAttrs) : List String :=
  match strTruthy a.status with
  | some s => ["status:" ++ s]
  | none => []

/-- `_add_team_info` tag contribution (escalation_policy_mapper.py
69-73). -/
def policyTeamTags (a : PolicyAttrs) : List String :=
  match strTruthy a.team with
  | some t => ["team:" ++ t]
  | none => []

/-- `_add_escalation_steps` tag contribution (escalation_policy_mapper.py
75-86): count the steps with a truthy id, tag only when positive. -/
def policyStepTags (r : PolicyRecord) : List String :=
  let steps := r.relStepIds.filterMap strTruthy
  if steps.length ≠ 0 then ["escalation_steps:" ++ toString steps.length] else []

/-- `escalation_policy_to_doc` / `EscalationPolicyDocumentMapper.convert`
(escalation_policy_mapper.py lines 13-61); the body content section is
not modelled. -/
def escalation_policy_to_doc (r : PolicyRecord) : Option DocFields :=
  match r.attributes with
  | none => none
  | some a =>
    match r.id with
    | none => none
    | some i =>
      let base := create_base_document i "EscalationPolicy"
        ("[ESCALATION] " ++ a.name.getD "No Name") a.url
      let ts := extract_timestamps a.created_at a.updated_at
      some { base with
        status := strTruthy a.status
        tags := policyStatusTags a ++ policyTeamTags a ++ policyStepTags r
        created_at := ts.created_at
        updated_at := ts.updated_at }

/-! ## Retrospective mapper
(src/document_mappers/retrospective_mapper.py) -/

/-- The attribute fields of a retrospective record read by the mapper. -/
structure RetroAttrs where
  title : Option String
  status : Option String
  url : Option String
  created_at : Option String
  updated_at : Option String
  deriving DecidableEq, Repr

/-- A raw retrospective record; `relIncidentId` is
`relationships.incident.data.id` (`none` when any step of that path is
absent). -/
structure RetroRecord where
  id : Option String
  attributes : Option RetroAttrs
  relIncidentId : Option String
  deriving DecidableEq, Repr

/-- The retrospective title (retrospective_mapper.py lines 38-43):
`attributes.get('title', f'Incident {incident_id}')` with
`incident_id = incident_data.get('id', 'Unknown')`. -/
def retroTitle (r : RetroRecord) (a : RetroAttrs) : String :=
  "Retrospective: " ++
    (match a.title with
      | some t => t
      | none => "Incident " ++ r.relIncidentId.getD "Unknown")

/-- `_add_status_and_tags` tag contribution (retrospective_mapper.py
66-74): the `type:retrospective` tag is always appended. -/
def retroStatusTags (a : RetroAttrs) : List String :=
  (match strTruthy a.status with
    | some s => ["status:" ++ s]
    | none => []) ++ ["type:retrospective"]

/-- `_add_incident_context` tag contribution (retrospective_mapper.py
76-80). -/
def retroIncidentTags (r : RetroRecord) : List String :=
  match strTruthy r.relIncidentId with
  | some i => ["incident:" ++ i]
  | none => []

/-- `retrospective_to_doc` / `RetrospectiveDocumentMapper.convert`
(retrospective_mapper.py lines 13-64); the body content section is not
modelled. -/
def retrospective_to_doc (r : RetroRecord) : Option DocFields :=
  match r.attributes with
  | none => none
  | some a =>
    match r.id with
    | none => none
    | some i =>
      let base := create_base_document i "Retrospective" (retroTitle r a) a.url
      let ts := extract_timestamps a.created_at a.updated_at
      some { base with
        status := strTruthy a.status
        tags := retroStatusTags a ++ retroIncidentTags r
        created_at := ts.created_at
        updated_at := ts.updated_at }

/-! ## Sync coordinator (src/processors/sync_coordinator.py) -/

/-- The conversion loop of `SyncCoordinator._sync_data_type`
(sync_coordinator.py lines 165-184): `if not raw_data: return []`, then
per item `doc = mapper(item); if doc: append` with per-item exceptions
caught (the Lean mappers are total, so the `except` branch is empty). -/
def mapRecords {ρ : Type} (mapper : ρ → Option DocFields) (rawData : List ρ) :
    List DocFields :=
  if rawData.isEmpty then [] else rawData.filterMap mapper

/-- Per-entity-type outcome recorded in the results dictionary
(sync_coordinator.py lines 78, 93-96, 101-104). -/
inductive SyncStatus where
  | skipped (reason : String)
  | success (documents_created : Nat)
  | error (message : String)
  deriving DecidableEq, Repr

/-- The `summary` entry of the results dictionary (sync_coordinator.py
lines 128-132). -/
structure SyncSummary where
  total_documents : Nat
  duplicates_removed : Nat
  sync_status : String
  deriving DecidableEq, Repr

/-- One entry of `self.data_type_configs` as seen by
`sync_all_data_types`: the type name, its `config.enabled` flag, and the
outcome of running `_sync_data_type` for it -- `Except.ok docs` when the
fetch/enrich/map pipeline returns `docs`, `Except.error (str e)` when it
raises. -/
structure TypeEntry where
  name : String
  enabled : Bool
  pipeline : Except String (List DocFields)
  deriving Repr

/-- The results-dictionary entry the loop body of `sync_all_data_types`
(lines 75-104) records for one entity type. -/
def entryResult (e : TypeEntry) : String × SyncStatus :=
  if !e.enabled then (e.name, SyncStatus.skipped "disabled")
  else
    match e.pipeline with
    | Except.ok docs => (e.name, SyncStatus.success docs.length)
    | Except.error msg => (e.name, SyncStatus.error msg)

/-- The documents the loop body appends to `all_documents` for one entity
type: nothing when the type is disabled or its pipeline raised. -/
def entryDocs (e : TypeEntry) : List DocFields :=
  if !e.enabled then []
  else
    match e.pipeline with
    | Except.ok docs => docs
    | Except.error _ => []

/-- `all_documents` after the per-type loop: the concatenation of every
type's documents in configuration order. -/
def collectedDocs (entries : List TypeEntry) : List DocFields :=
  (entries.map entryDocs).flatten

/-- The deduplication loop of `sync_all_data_types` (lines 106-125):
walk `all_documents` keeping a `seen_ids` set, append first occurrences
to `unique_documents`, count the dropped duplicates.  Returns
`(unique_documents, duplicates_removed)`. -/
def dedupLoop (seen : List String) : List DocFields → List DocFields × Nat
  | [] => ([], 0)
  | d :: ds =>
    if d.id ∈ seen then
      let r := dedupLoop seen ds
      (r.1, r.2 + 1)
    else
      let r := dedupLoop (d.id :: seen) ds
      (d :: r.1, r.2)

/-- Deduplication of the aggregated document list, entered with an empty
`seen_ids` set. -/
def dedupById (docs : List DocFields) : List DocFields × Nat :=
  dedupLoop [] docs

/-- The value returned by `sync_all_data_types`: the per-type entries of
the results dictionary in insertion order, its final `summary` entry, and
the deduplicated document list. -/
structure SyncOutcome where
  results : List (String × SyncStatus)
  summary : SyncSummary
  documents : List DocFields
  deriving DecidableEq, Repr

/-- `SyncCoordinator.sync_all_data_types` (sync_coordinator.py lines
62-134) over an arbitrary configuration `entries`: run every entity type
in order recording its status, aggregate the documents, deduplicate by
id, and build the summary. -/
def syncAllDataTypes (entries : List TypeEntry) : SyncOutcome :=
  let dd := dedupById (collectedDocs entries)
  { results := entries.map entryResult
    summary :=
      { total_documents := dd.1.length
        duplicates_removed := dd.2
        sync_status := "completed" }
    documents := dd.1 }

/-! ## Concrete inputs used to evaluate the model -/

/-- Endpoint whose responses depend only on the page number. -/
def reqOfPages {α : Type} (pages : Nat → List α) : Nat → Nat → Except String (List α) :=
  fun _ p => Except.ok (pages p)

/-- Page contents with two items on page 1 and nothing afterwards: the
first empty page is page 2. -/
def pagesTwoThenEmpty : Nat → List Nat :=
  fun p => if p = 1 then [0, 1] else []

/-- Page contents with one item on each of pages 1..11 and nothing
afterwards: the first empty page is page 12. -/
def pagesElevenThenEmpty : Nat → List Nat :=
  fun p => if p ≤ 11 then [p] else []

/-- Page contents with one item per page, used for the page-failure
witness. -/
def pagesSingleton : Nat → List Nat :=
  fun p => [p]

/-- Endpoint that serves `pagesSingleton` on pages 1 and 2 and raises on
every later page: the request for page 3 fails. -/
def reqFailAtThree : Nat → Nat → Except String (List Nat) :=
  fun _ p => if p < 3 then Except.ok (pagesSingleton p) else Except.error "boom"

/-- Endpoint with unbounded data that honours the requested page size
exactly. -/
def reqHonoring : Nat → Nat → Except String (List Nat) :=
  fun s _ => Except.ok (List.range s)

/-- Endpoint serving pages 1..3 with one item each, empty afterwards,
used for the empty-page witness. -/
def pagesThreeThenEmpty : Nat → List Nat :=
  fun p => if p < 4 then [p] else []

/-- A fully defaulted incident attributes block. -/
def blankIncidentAttrs : IncidentAttrs :=
  { title := none, sequential_id := none, status := none, url := none,
    kind := none, summary := none, severity := none,
    created_at := none, updated_at := none }

/-- One incident record with attributes but without an id key. -/
def recordsNoId : List IncidentRecord :=
  [{ id := none, attributes := some blankIncidentAttrs }]

/-- Two incident records sharing the id `a`, the first without
attributes. -/
def recordsDupId : List IncidentRecord :=
  [{ id := some "a", attributes := none },
   { id := some "a", attributes := some blankIncidentAttrs }]

/-- Two well-formed incident records, the first without attributes. -/
def recordsWitness : List IncidentRecord :=
  [{ id := some "x", attributes := none },
   { id := some "y", attributes := some blankIncidentAttrs }]

/-- A small concrete document used to build coordinator inputs. -/
def mkDoc (i : String) : DocFields :=
  create_base_document i "Incident" ("Doc " ++ i) none

/-- A document list with one duplicated id. -/
def docsWithDup : List DocFields :=
  [mkDoc "a", mkDoc "b", mkDoc "a"]

/-- A concrete coordinator configuration in which the alerts pipeline
raises. -/
def entriesWitness : List TypeEntry :=
  [{ name := "incidents", enabled := true, pipeline := Except.ok [mkDoc "a", mkDoc "b"] },
   { name := "alerts", enabled := true, pipeline := Except.error "boom" },
   { name := "schedules", enabled := false, pipeline := Except.ok [] }]

/-- A concrete incident record with attributes and no source URL. -/
def sampleIncident : IncidentRecord :=
  { id := some "inc-1",
    attributes := some { blankIncidentAttrs with title := some "DB outage" } }

/-- The document produced for `sampleIncident`. -/
def sampleIncidentDoc : DocFields :=
  (incident_to_doc sampleIncident).getD (mkDoc "unused")

/-- Spec-side blank-URL test (spec wording: the source provides no URL or
a blank one): the walrus guard `view_url and view_url.strip()` rejects
exactly these values. -/
def urlBlank : Option String → Bool
  | none => true
  | some u => u.trim == ""

/-! # Theorems -/

/-! ## Fetcher lemmas -/

theorem maxReached_untruthy (maxItems : Option Nat)
    (hm : maxItems = none ∨ maxItems = some 0) (len : Nat) :
    maxReached maxItems len = false := by
  rcases hm with rfl | rfl <;> simp [maxReached]

theorem pageSize_untruthy (maxItems : Option Nat)
    (hm : maxItems = none ∨ maxItems = some 0) (ips len : Nat) :
    pageSize maxItems ips len = ips := by
  rcases hm with rfl | rfl <;> simp [pageSize]

theorem concatPages_add {α : Type} (pages : Nat → List α) (s a b : Nat) :
    concatPages pages s (a + b) = concatPages pages s a ++ concatPages pages (s + a) b := by
  induction a generalizing s with
  | zero => simp [concatPages]
  | succ n ih =>
    have : s + (n + 1) = (s + 1) + n := by omega
    simp only [Nat.succ_add, concatPages, ih (s + 1), List.append_assoc, this]

/-- The page loop under a non-truthy `max_items`: if every page before
`K` is served non-empty and page `K` is served empty, the loop starting
at `page ≤ K` with enough fuel accumulates exactly pages `page..K-1`. -/
theorem fetchLoop_empty_stop {α : Type} (req : Nat → Nat → Except String (List α))
    (maxItems : Option Nat) (ips : Nat) (pages : Nat → List α) (K : Nat)
    (hm : maxItems = none ∨ maxItems = some 0)
    (hempty : req ips K = Except.ok []) :
    ∀ fuel page acc log, 1 ≤ page → page ≤ K → K ≤ page + fuel →
      (∀ p, page ≤ p → p < K → req ips p = Except.ok (pages p) ∧ pages p ≠ []) →
      (fetchLoop req maxItems ips fuel page acc log).1
        = acc ++ concatPages pages page (K - page) := by
  intro fuel
  induction fuel with
  | zero =>
    intro page acc log h1 h2 h3 _
    have hpk : K = page := by omega
    subst hpk
    simp [fetchLoop, concatPages]
  | succ n ih =>
    intro page acc log h1 h2 h3 hpages
    rw [fetchLoop, maxReached_untruthy maxItems hm, pageSize_untruthy maxItems hm]
    simp only [Bool.false_eq_true, if_false]
    by_cases hpk : page = K
    · subst hpk
      rw [hempty]
      simp [concatPages]
    · have hlt : page < K := by omega
      obtain ⟨hok, hne⟩ := hpages page (le_refl page) hlt
      rw [hok]
      have hie : (pages page).isEmpty = false := by
        cases hp : pages page with
        | nil => exact absurd hp hne
        | cons a l => simp
      simp only [hie, Bool.false_eq_true, if_false]
      rw [ih (page + 1) (acc ++ pages page) _ (by omega) (by omega) (by omega)
        (fun p hp1 hp2 => hpages p (by omega) hp2)]
      have hKp : K - page = 1 + (K - (page + 1)) := by omega
      rw [hKp, concatPages_add, List.append_assoc]
      simp [concatPages]

/-- The page loop behaves identically under `max_items = 0` and
`max_items = None`: both are falsy at every guard. -/
theorem fetchLoop_zero_eq_none {α : Type} (req : Nat → Nat → Except String (List α))
    (ips : Nat) :
    ∀ fuel page acc log,
      fetchLoop req (some 0) ips fuel page acc log
        = fetchLoop req none ips fuel page acc log := by
  intro fuel
  induction fuel with
  | zero => intro page acc log; rfl
  | succ n ih =>
    intro page acc log
    rw [fetchLoop, fetchLoop, maxReached_untruthy (some 0) (Or.inr rfl),
      maxReached_untruthy none (Or.inl rfl), pageSize_untruthy (some 0) (Or.inr rfl),
      pageSize_untruthy none (Or.inl rfl)]
    simp only [Bool.false_eq_true, if_false]
    cases req ips page with
    | error e => rfl
    | ok items =>
      by_cases hi : items.isEmpty <;> simp [hi, ih]

/-- Once the accumulated length reaches a truthy `max_items`, the loop
stops immediately. -/
theorem fetchLoop_reached {α : Type} (req : Nat → Nat → Except String (List α))
    (X ips : Nat) (hX : X ≠ 0) :
    ∀ fuel page acc log, X ≤ acc.length →
      fetchLoop req (some X) ips fuel page acc log = (acc, log) := by
  intro fuel page acc log h
  cases fuel with
  | zero => rfl
  | succ n =>
    rw [fetchLoop]
    have hmr : maxReached (some X) acc.length = true := by
      simp [maxReached, hX, h]
    simp [hmr]

/-- Against an endpoint that honours the requested page size exactly, a
loop under a truthy cap `X` that still has room and enough fuel ends with
exactly `X` accumulated items. -/
theorem fetchLoop_fills {α : Type} (req : Nat → Nat → Except String (List α))
    (X ips : Nat) (hips : 1 ≤ ips)
    (hreq : ∀ s p, 1 ≤ s → ∃ l, req s p = Except.ok l ∧ l.length = s) :
    ∀ fuel page acc log, acc.length < X → X - acc.length ≤ fuel * ips →
      (fetchLoop req (some X) ips fuel page acc log).1.length = X := by
  intro fuel
  induction fuel with
  | zero => intro page acc log h1 h2; omega
  | succ n ih =>
    intro page acc log h1 h2
    rw [fetchLoop]
    have hmr : maxReached (some X) acc.length = false := by
      simp only [maxReached, Bool.and_eq_false_iff]
      right
      simp
      omega
    rw [hmr]
    simp only [Bool.false_eq_true, if_false]
    have hX0 : X ≠ 0 := by omega
    have hsz : pageSize (some X) ips acc.length = min ips (X - acc.length) := by
      simp [pageSize, hX0]
    have hs1 : 1 ≤ pageSize (some X) ips acc.length := by rw [hsz]; omega
    obtain ⟨l, hl, hlen⟩ := hreq _ page hs1
    rw [hl]
    have hie : l.isEmpty = false := by
      cases hll : l with
      | nil => rw [hll] at hlen; simp at hlen; omega
      | cons a t => simp
    simp only [hie, Bool.false_eq_true, if_false]
    rw [hsz] at hlen
    by_cases hfin : X ≤ acc.length + l.length
    · have hexact : (acc ++ l).length = X := by
        rw [List.length_append]; omega
      rw [fetchLoop_reached req X ips hX0 n (page + 1) (acc ++ l) _ (le_of_eq hexact.symm)]
      exact hexact
    · rw [Nat.succ_mul] at h2
      have hlips : l.length = ips := by omega
      apply ih
      · rw [List.length_append]; omega
      · rw [List.length_append]; omega

/-- Every entry of the request log produced under a truthy cap `X` asks
for `min(items_per_page, X - len(all_items))` items. -/
theorem fetchLoop_log_sizes {α : Type} (req : Nat → Nat → Except String (List α))
    (X ips : Nat) (hX : X ≠ 0) :
    ∀ fuel page acc log,
      (∀ r ∈ log, r.size = min ips (X - r.accBefore)) →
      ∀ r ∈ (fetchLoop req (some X) ips fuel page acc log).2,
        r.size = min ips (X - r.accBefore) := by
  intro fuel
  induction fuel with
  | zero => intro page acc log hlog; exact hlog
  | succ n ih =>
    intro page acc log hlog
    rw [fetchLoop]
    by_cases hmr : maxReached (some X) acc.length
    · simp only [hmr, if_true]; exact hlog
    · simp only [hmr, Bool.false_eq_true, if_false]
      have hnew : ∀ r ∈ log ++ [⟨pageSize (some X) ips acc.length, page, acc.length⟩],
          r.size = min ips (X - r.accBefore) := by
        intro r hr
        rcases List.mem_append.mp hr with h | h
        · exact hlog r h
        · have : r = ⟨pageSize (some X) ips acc.length, page, acc.length⟩ := by
            simpa using h
          subst this
          simp [pageSize, hX]
      cases hq : req (pageSize (some X) ips acc.length) page with
      | error e => exact hnew
      | ok items =>
        by_cases hi : items.isEmpty
        · simp only [hi, if_true]; exact hnew
        · simp only [hi, Bool.false_eq_true, if_false]
          exact ih (page + 1) (acc ++ items) _ hnew

/-- Against an endpoint that honours the requested page size exactly, the
loop without a cap fetches `fuel` full pages. -/
theorem fetchLoop_none_length {α : Type} (req : Nat → Nat → Except String (List α))
    (ips : Nat) (hips : 1 ≤ ips)
    (hreq : ∀ s p, 1 ≤ s → ∃ l, req s p = Except.ok l ∧ l.length = s) :
    ∀ fuel page acc log,
      (fetchLoop req none ips fuel page acc log).1.length = acc.length + fuel * ips := by
  intro fuel
  induction fuel with
  | zero => intro page acc log; simp [fetchLoop]
  | succ n ih =>
    intro page acc log
    rw [fetchLoop, maxReached_untruthy none (Or.inl rfl), pageSize_untruthy none (Or.inl rfl)]
    simp only [Bool.false_eq_true, if_false]
    obtain ⟨l, hl, hlen⟩ := hreq ips page hips
    rw [hl]
    have hie : l.isEmpty = false := by
      cases hll : l with
      | nil => rw [hll] at hlen; simp at hlen; omega
      | cons a t => simp
    simp only [hie, Bool.false_eq_true, if_false]
    rw [ih (page + 1) (acc ++ l), List.length_append, Nat.succ_mul]
    omega

/-- If every page before `P` is served (page-number determined and
non-empty), the request for page `P` raises, and a truthy cap is not hit
before page `P`, then the loop starting at `page ≤ P` with enough fuel
returns exactly pages `1..P-1`, and makes no request beyond page `P`. -/
theorem fetchLoop_error_stop {α : Type} (req : Nat → Nat → Except String (List α))
    (pages : Nat → List α) (maxItems : Option Nat) (ips P : Nat) (msg : String)
    (hpages : ∀ s p, 1 ≤ p → p < P → req s p = Except.ok (pages p))
    (hne : ∀ p, 1 ≤ p → p < P → pages p ≠ [])
    (herr : ∀ s, req s P = Except.error msg)
    (hreach : ∀ X, maxItems = some X → X = 0 ∨ (concatPages pages 1 (P - 1)).length < X) :
    ∀ fuel page log, 1 ≤ page → page ≤ P → P < page + fuel →
      (fetchLoop req maxItems ips fuel page (concatPages pages 1 (page - 1)) log).1
        = concatPages pages 1 (P - 1)
      ∧ ∀ r ∈ (fetchLoop req maxItems ips fuel page (concatPages pages 1 (page - 1)) log).2,
          r ∈ log ∨ r.page ≤ P := by
  intro fuel
  induction fuel with
  | zero => intro page log h1 h2 h3; omega
  | succ n ih =>
    intro page log h1 h2 h3
    have hacclen : (concatPages pages 1 (page - 1)).length
        ≤ (concatPages pages 1 (P - 1)).length := by
      have hsplit : P - 1 = (page - 1) + (P - page) := by omega
      rw [hsplit, concatPages_add, List.length_append]
      omega
    have hmr : maxReached maxItems (concatPages pages 1 (page - 1)).length = false := by
      cases hmi : maxItems with
      | none => simp [maxReached]
      | some X =>
        rcases hreach X hmi with rfl | hlt
        · simp [maxReached]
        · simp only [maxReached, Bool.and_eq_false_iff]
          right
          simp
          omega
    rw [fetchLoop, hmr]
    simp only [Bool.false_eq_true, if_false]
    by_cases hpP : page = P
    · subst hpP
      rw [herr]
      constructor
      · rfl
      · intro r hr
        rcases List.mem_append.mp hr with h | h
        · exact Or.inl h
        · have : r = ⟨pageSize maxItems ips (concatPages pages 1 (page - 1)).length,
              page, (concatPages pages 1 (page - 1)).length⟩ := by simpa using h
          subst this
          exact Or.inr (le_refl page)
    · have hlt : page < P := by omega
      rw [hpages _ page h1 hlt]
      have hie : (pages page).isEmpty = false := by
        cases hp : pages page with
        | nil => exact absurd hp (hne page h1 hlt)
        | cons a t => simp
      simp only [hie, Bool.false_eq_true, if_false]
      have hacc : concatPages pages 1 (page - 1) ++ pages page
          = concatPages pages 1 ((page + 1) - 1) := by
        have h4 : (page + 1) - 1 = (page - 1) + 1 := by omega
        have h5 : 1 + (page - 1) = page := by omega
        rw [h4, concatPages_add, h5]
        simp [concatPages]
      rw [hacc]
      obtain ⟨ihl, ihr⟩ := ih (page + 1) _ (by omega) (by omega) (by omega)
      refine ⟨ihl, fun r hr => ?_⟩
      rcases ihr r hr with h | h
      · rcases List.mem_append.mp h with h2 | h2
        · exact Or.inl h2
        · have : r = ⟨pageSize maxItems ips (concatPages pages 1 (page - 1)).length,
              page, (concatPages pages 1 (page - 1)).length⟩ := by simpa using h2
          subst this
          exact Or.inr (by show page ≤ P; omega)
      · exact Or.inr h

/-! ## Claims C3, C4, C5, C9 -/

/-- Claim C3, counterexample.  As stated the claim is false on two
counts.  First, it does not hold regardless of `max_items`: against the
endpoint `pagesTwoThenEmpty` (first empty page `K = 2`, so the claimed
result is pages 1..1 = `[0, 1]`), a fetch with `max_items = 1` returns
`[0]`.  Second, even without `max_items`, against `pagesElevenThenEmpty`
(first empty page `K = 12`) the 10-page safety cap stops the fetch after
page 10, returning pages 1..10 instead of pages 1..11. -/
theorem c3_counterexample :
    (pagesTwoThenEmpty 1 ≠ [] ∧ pagesTwoThenEmpty 2 = []
      ∧ fetch_paginated_data (reqOfPages pagesTwoThenEmpty) (some 1) 2 = [0]
      ∧ concatPages pagesTwoThenEmpty 1 1 = [0, 1])
    ∧ (pagesElevenThenEmpty 11 ≠ [] ∧ pagesElevenThenEmpty 12 = []
      ∧ fetch_paginated_data (reqOfPages pagesElevenThenEmpty) none 1
          = [1, 2, 3, 4, 5, 6, 7, 8, 9, 10]
      ∧ concatPages pagesElevenThenEmpty 1 11
          = [1, 2, 3, 4, 5, 6, 7, 8, 9, 10, 11]) := by
  decide

/-- Claim C3, amended: for a paginated fetch whose `max_items` is absent
(or zero, which is falsy and unenforced), against an endpoint whose page
`K ≤ max_pages + 1` is the first empty page, `fetch_paginated_data`
returns exactly the concatenation of the items of pages `1..K-1`. -/
theorem c3_empty_page_amended {α : Type} (req : Nat → Nat → Except String (List α))
    (pages : Nat → List α) (maxItems : Option Nat) (ips K : Nat)
    (hm : maxItems = none ∨ maxItems = some 0)
    (hK : 1 ≤ K) (hKcap : K ≤ max_pages + 1)
    (hpages : ∀ p, 1 ≤ p → p < K → req ips p = Except.ok (pages p) ∧ pages p ≠ [])
    (hempty : req ips K = Except.ok []) :
    fetch_paginated_data req maxItems ips = concatPages pages 1 (K - 1) := by
  have h := fetchLoop_empty_stop req maxItems ips pages K hm hempty max_pages 1 [] []
    (le_refl 1) hK (by omega) (fun p hp1 hp2 => hpages p hp1 hp2)
  rcases hm with rfl | rfl
  · simpa [fetch_paginated_data] using h
  · simpa [fetch_paginated_data] using h

/-- Claim C3 amended, witness: against an endpoint with three singleton
pages and page 4 empty, a fetch without `max_items` returns pages 1..3. -/
theorem c3_empty_page_amended_witness :
    fetch_paginated_data (reqOfPages pagesThreeThenEmpty) none 5
        = concatPages pagesThreeThenEmpty 1 3
    ∧ concatPages pagesThreeThenEmpty 1 3 = [1, 2, 3] :=
  ⟨c3_empty_page_amended (reqOfPages pagesThreeThenEmpty) pagesThreeThenEmpty none 5 4
      (Or.inl rfl) (by decide) (by decide)
      (fun p h1 h2 => ⟨rfl, by simp [pagesThreeThenEmpty, h2]⟩)
      rfl,
    by decide⟩

/-- Claim C4: with a truthy cap `max_items = X > 0`, against an endpoint
that honours the requested page size exactly and would without the cap
yield more than `X` items, the fetch returns exactly `X` items; every
request in the log asks for at most `items_per_page` items, shrunk to
exactly the remaining slots `min(items_per_page, X - len(all_items))`;
and against any endpoint whatsoever the result is truncated to at most
`X` items even if the last page overshot. -/
theorem c4_cap_enforced {α : Type} (req : Nat → Nat → Except String (List α))
    (X ips : Nat) (hX : 1 ≤ X) (hips : 1 ≤ ips)
    (hreq : ∀ s p, 1 ≤ s → ∃ l, req s p = Except.ok l ∧ l.length = s)
    (hyield : X < (fetch_paginated_data req none ips).length) :
    (fetch_paginated_data req (some X) ips).length = X
    ∧ (∀ r ∈ (fetchLoop req (some X) ips max_pages 1 [] []).2,
        r.size ≤ ips ∧ r.size = min ips (X - r.accBefore))
    ∧ ∀ req2 : Nat → Nat → Except String (List α),
        (fetch_paginated_data req2 (some X) ips).length ≤ X := by
  have hfull : (fetch_paginated_data req none ips).length = max_pages * ips := by
    have h := fetchLoop_none_length req ips hips hreq max_pages 1 [] []
    simpa [fetch_paginated_data] using h
  rw [hfull] at hyield
  have hX0 : (X != 0) = true := by simp; omega
  refine ⟨?_, ?_, ?_⟩
  · have hloop := fetchLoop_fills req X ips hips hreq max_pages 1 [] []
      (by simpa using hX) (by simp; omega)
    simp only [fetch_paginated_data, hX0, if_true]
    rw [List.length_take, hloop]
    omega
  · intro r hr
    have h2 := fetchLoop_log_sizes req X ips (by omega) max_pages 1 [] []
      (by intro r hr; simp at hr) r hr
    exact ⟨by rw [h2]; omega, h2⟩
  · intro req2
    simp only [fetch_paginated_data, hX0, if_true]
    rw [List.length_take]
    omega

/-- Claim C4, witness: a cap of 3 against a size-honouring endpoint with
plenty of data returns exactly 3 items. -/
theorem c4_cap_enforced_witness :
    (fetch_paginated_data reqHonoring (some 3) 2).length = 3 :=
  (c4_cap_enforced reqHonoring 3 2 (by decide) (by decide)
      (fun s p hs => ⟨List.range s, rfl, List.length_range s⟩)
      (by decide)).1

/-- Claim C5: when the request for page `P` is made (pages before `P`
are served non-empty, a truthy cap is not hit first, and `P` is within
the page safety limit) and raises, the fetch does not propagate the
exception: it returns exactly the items accumulated from pages `1..P-1`
(the `max_items` truncation is a no-op on them) and requests no page
beyond `P`. -/
theorem c5_page_failure_partial_results {α : Type} (req : Nat → Nat → Except String (List α))
    (pages : Nat → List α) (maxItems : Option Nat) (ips P : Nat) (msg : String)
    (hP1 : 1 ≤ P) (hPcap : P ≤ max_pages)
    (hpages : ∀ s p, 1 ≤ p → p < P → req s p = Except.ok (pages p))
    (hne : ∀ p, 1 ≤ p → p < P → pages p ≠ [])
    (herr : ∀ s, req s P = Except.error msg)
    (hreach : ∀ X, maxItems = some X → X = 0 ∨ (concatPages pages 1 (P - 1)).length < X) :
    fetch_paginated_data req maxItems ips = concatPages pages 1 (P - 1)
    ∧ ∀ r ∈ (fetchLoop req maxItems ips max_pages 1 [] []).2, r.page ≤ P := by
  have h := fetchLoop_error_stop req pages maxItems ips P msg hpages hne herr hreach
    max_pages 1 [] (le_refl 1) hP1 (by omega)
  rw [show concatPages pages 1 (1 - 1) = ([] : List α) from rfl] at h
  obtain ⟨h1, h2⟩ := h
  constructor
  · cases hmi : maxItems with
    | none =>
      subst hmi
      simpa [fetch_paginated_data] using h1
    | some X =>
      subst hmi
      rcases hreach X rfl with rfl | hlt
      · simpa [fetch_paginated_data] using h1
      · have hX0 : (X != 0) = true := by simp; omega
        simp only [fetch_paginated_data, hX0, if_true]
        rw [h1]
        exact List.take_of_length_le (by omega)
  · intro r hr
    rcases h2 r hr with h | h
    · simp at h
    · exact h

/-- Claim C5, witness: against an endpoint with singleton pages whose
page-3 request raises, a fetch without `max_items` returns pages 1..2. -/
theorem c5_page_failure_partial_results_witness :
    fetch_paginated_data reqFailAtThree none 2 = concatPages pagesSingleton 1 2
    ∧ concatPages pagesSingleton 1 2 = [1, 2] :=
  ⟨(c5_page_failure_partial_results reqFailAtThree pagesSingleton none 2 3 "boom"
      (by decide) (by decide)
      (fun s p h1 h2 => by simp [reqFailAtThree, h2])
      (fun p h1 h2 => by simp [pagesSingleton])
      (fun s => by simp [reqFailAtThree])
      (fun X h => Option.noConfusion h)).1,
    by decide⟩

/-- Claim C9: `max_items = 0` is falsy, so the cap is not enforced at
all: the fetch behaves identically to a fetch with `max_items` absent,
and the accumulated item list is returned untruncated. -/
theorem c9_zero_cap_unenforced {α : Type} (req : Nat → Nat → Except String (List α))
    (ips : Nat) :
    fetch_paginated_data req (some 0) ips = fetch_paginated_data req none ips
    ∧ fetch_paginated_data req (some 0) ips
        = (fetchLoop req (some 0) ips max_pages 1 [] []).1 := by
  constructor
  · simp only [fetch_paginated_data]
    rw [fetchLoop_zero_eq_none]
    simp
  · simp [fetch_paginated_data]

/-! ## Deduplication lemmas -/

/-- The kept documents form a subsequence of the input (first-seen order
is preserved, nothing is reordered or invented). -/
theorem dedupLoop_sublist (seen : List String) (docs : List DocFields) :
    (dedupLoop seen docs).1.Sublist docs := by
  induction docs generalizing seen with
  | nil => simp [dedupLoop]
  | cons d ds ih =>
    rw [dedupLoop]
    by_cases h : d.id ∈ seen
    · simp only [h, if_true]
      exact List.Sublist.cons d (ih seen)
    · simp only [h, if_false]
      exact List.Sublist.cons₂ d (ih (d.id :: seen))

/-- Kept plus dropped accounts for every input document. -/
theorem dedupLoop_length (seen : List String) (docs : List DocFields) :
    (dedupLoop seen docs).1.length + (dedupLoop seen docs).2 = docs.length := by
  induction docs generalizing seen with
  | nil => simp [dedupLoop]
  | cons d ds ih =>
    rw [dedupLoop]
    by_cases h : d.id ∈ seen
    · simp only [h, if_true]
      have := ih seen
      simp only [List.length_cons]
      omega
    · simp only [h, if_false]
      have := ih (d.id :: seen)
      simp only [List.length_cons, List.length_cons]
      omega

/-- No kept document carries an id from the incoming seen set. -/
theorem dedupLoop_not_seen (seen : List String) (docs : List DocFields) :
    ∀ x ∈ (dedupLoop seen docs).1, x.id ∉ seen := by
  induction docs generalizing seen with
  | nil => simp [dedupLoop]
  | cons d ds ih =>
    rw [dedupLoop]
    by_cases h : d.id ∈ seen
    · simp only [h, if_true]
      exact ih seen
    · simp only [h, if_false]
      intro x hx
      rcases List.mem_cons.mp hx with rfl | hx2
      · exact h
      · have := ih (d.id :: seen) x hx2
        intro hcon
        exact this (List.mem_cons_of_mem _ hcon)

/-- The ids of the kept documents are pairwise distinct. -/
theorem dedupLoop_nodup (seen : List String) (docs : List DocFields) :
    ((dedupLoop seen docs).1.map DocFields.id).Nodup := by
  induction docs generalizing seen with
  | nil => simp [dedupLoop]
  | cons d ds ih =>
    rw [dedupLoop]
    by_cases h : d.id ∈ seen
    · simp only [h, if_true]
      exact ih seen
    · simp only [h, if_false, List.map_cons, List.nodup_cons]
      refine ⟨?_, ih (d.id :: seen)⟩
      intro hcon
      rcases List.mem_map.mp hcon with ⟨x, hx, hxid⟩
      exact dedupLoop_not_seen (d.id :: seen) ds x hx (hxid ▸ List.mem_cons_self _ _)

/-- For every id not in the incoming seen set, the first kept document
with that id is the first input document with that id. -/
theorem dedupLoop_find (seen : List String) (docs : List DocFields) (i : String)
    (hi : i ∉ seen) :
    (dedupLoop seen docs).1.find? (fun x => x.id == i)
      = docs.find? (fun x => x.id == i) := by
  induction docs generalizing seen with
  | nil => simp [dedupLoop]
  | cons d ds ih =>
    rw [dedupLoop]
    by_cases h : d.id ∈ seen
    · simp only [h, if_true]
      have hne : (d.id == i) = false := by
        simp only [beq_eq_false_iff_ne, ne_eq]
        intro hcon
        exact hi (hcon ▸ h)
      rw [List.find?_cons_of_neg _ (by simp [hne]), ih seen hi]
    · simp only [h, if_false]
      by_cases hdi : d.id = i
      · rw [List.find?_cons_of_pos _ (by simp [hdi]),
          List.find?_cons_of_pos _ (by simp [hdi])]
      · rw [List.find?_cons_of_neg _ (by simp [hdi]),
          List.find?_cons_of_neg _ (by simp [hdi])]
        exact ih (d.id :: seen) (by
          intro hcon
          rcases List.mem_cons.mp hcon with h2 | h2
          · exact hdi h2.symm
          · exact hi h2)

/-! ## Claims C1, C2 -/

/-- The per-type result entry always carries the type's name. -/
theorem entryResult_fst (e : TypeEntry) : (entryResult e).1 = e.name := by
  cases he : e.enabled <;> cases hp : e.pipeline <;> simp [entryResult, he, hp]

/-- Claim C1: if the fetch/enrich/map pipeline of one enabled entity
type raises, the coordinator records that type as `error` with the
exception's description, still records an entry for every configured
type in order (in particular every other enabled type's success with its
document count), collects no documents from the failed type, and still
returns the deduplicated documents of the other types together with a
completed summary. -/
theorem c1_type_error_isolated (entries : List TypeEntry) (e : TypeEntry) (msg : String)
    (hmem : e ∈ entries) (hen : e.enabled = true)
    (herr : e.pipeline = Except.error msg)
    (_hnames : (entries.map TypeEntry.name).Nodup) :
    ((e.name, SyncStatus.error msg) ∈ (syncAllDataTypes entries).results)
    ∧ (syncAllDataTypes entries).results.map Prod.fst = entries.map TypeEntry.name
    ∧ (∀ e2 ds, e2 ∈ entries → e2.enabled = true → e2.pipeline = Except.ok ds →
        (e2.name, SyncStatus.success ds.length) ∈ (syncAllDataTypes entries).results)
    ∧ entryDocs e = []
    ∧ (syncAllDataTypes entries).documents = (dedupById (collectedDocs entries)).1
    ∧ (syncAllDataTypes entries).summary.sync_status = "completed"
    ∧ (syncAllDataTypes entries).summary.total_documents
        = (syncAllDataTypes entries).documents.length := by
  refine ⟨?_, ?_, ?_, ?_, rfl, rfl, rfl⟩
  · have : entryResult e = (e.name, SyncStatus.error msg) := by
      simp [entryResult, hen, herr]
    exact this ▸ List.mem_map_of_mem entryResult hmem
  · simp only [syncAllDataTypes, List.map_map]
    exact List.map_congr_left (fun x _ => entryResult_fst x)
  · intro e2 ds hmem2 hen2 hok2
    have : entryResult e2 = (e2.name, SyncStatus.success ds.length) := by
      simp [entryResult, hen2, hok2]
    exact this ▸ List.mem_map_of_mem entryResult hmem2
  · simp [entryDocs, hen, herr]

/-- Claim C1, witness: in a concrete three-type configuration whose
alerts pipeline raises, the error is recorded, all three types appear in
the results, and the other types' documents are returned. -/
theorem c1_type_error_isolated_witness :
    (("alerts", SyncStatus.error "boom") ∈ (syncAllDataTypes entriesWitness).results)
    ∧ (syncAllDataTypes entriesWitness).results.map Prod.fst
        = ["incidents", "alerts", "schedules"] := by
  have h := c1_type_error_isolated entriesWitness
    { name := "alerts", enabled := true, pipeline := Except.error "boom" } "boom"
    (by simp [entriesWitness]) rfl rfl (by decide)
  exact ⟨h.1, by rw [h.2.1]; decide⟩

/-- Claim C2: deduplication keeps a subsequence of the aggregated list
(first-seen order), keeps exactly the first occurrence of each id, keeps
pairwise distinct ids, counts exactly the dropped documents, and the
summary reports the deduplicated length as `total_documents` and the
dropped count as `duplicates_removed`. -/
theorem c2_dedup_first_occurrences (docs : List DocFields) (entries : List TypeEntry) :
    (dedupById docs).1.Sublist docs
    ∧ (∀ d ∈ docs, (dedupById docs).1.find? (fun x => x.id == d.id)
        = docs.find? (fun x => x.id == d.id))
    ∧ ((dedupById docs).1.map DocFields.id).Nodup
    ∧ (dedupById docs).1.length + (dedupById docs).2 = docs.length
    ∧ (syncAllDataTypes entries).summary.total_documents
        = (syncAllDataTypes entries).documents.length
    ∧ (syncAllDataTypes entries).summary.duplicates_removed
        = (dedupById (collectedDocs entries)).2
    ∧ (syncAllDataTypes entries).documents.length
        + (syncAllDataTypes entries).summary.duplicates_removed
        = (collectedDocs entries).length := by
  refine ⟨dedupLoop_sublist [] docs, ?_, dedupLoop_nodup [] docs,
    dedupLoop_length [] docs, rfl, rfl, ?_⟩
  · intro d _
    exact dedupLoop_find [] docs d.id (by simp)
  · exact dedupLoop_length [] (collectedDocs entries)

/-- Claim C2, witness: on a concrete list with a duplicated id, the
first occurrence of the id is kept and one duplicate is counted. -/
theorem c2_dedup_first_occurrences_witness :
    (dedupById docsWithDup).1.find? (fun x => x.id == (mkDoc "a").id)
      = docsWithDup.find? (fun x => x.id == (mkDoc "a").id)
    ∧ (dedupById docsWithDup).1.length + (dedupById docsWithDup).2
        = docsWithDup.length :=
  ⟨(c2_dedup_first_occurrences docsWithDup []).2.1 (mkDoc "a")
      (by simp [docsWithDup]),
    (c2_dedup_first_occurrences docsWithDup []).2.2.2.1⟩

/-! ## Mapper lemmas -/

theorem mapRecords_eq_filterMap {ρ : Type} (m : ρ → Option DocFields) (l : List ρ) :
    mapRecords m l = l.filterMap m := by
  cases l <;> simp [mapRecords]

theorem defaultViewUrl_ne_empty (ot iid : String) : defaultViewUrl ot iid ≠ "" := by
  intro hcon
  have h2 := congrArg String.length hcon
  rw [defaultViewUrl, String.length_append, String.length_append,
    String.length_append] at h2
  have e1 : "https://rootly.com/account/".length = 27 := rfl
  have e2 : "/".length = 1 := rfl
  have e3 : "".length = 0 := rfl
  rw [e1, e2, e3] at h2
  omega

/-- The base document always has a non-empty view URL, the
anonymous-access permission, and falls back to the generated default URL
exactly when the supplied URL is absent or blank. -/
theorem base_doc_good (iid ot t : String) (u : Option String) :
    (create_base_document iid ot t u).view_url ≠ ""
    ∧ (create_base_document iid ot t u).permissions.allow_anonymous_access = true
    ∧ (urlBlank u = true →
        (create_base_document iid ot t u).view_url = defaultViewUrl ot iid) := by
  refine ⟨?_, rfl, ?_⟩
  · cases u with
    | none => exact defaultViewUrl_ne_empty ot iid
    | some s =>
      by_cases hc : s ≠ "" ∧ s.trim ≠ ""
      · simp only [create_base_document, if_pos hc]
        exact hc.1
      · simpa [create_base_document, hc] using defaultViewUrl_ne_empty ot iid
  · intro hblank
    cases u with
    | none => rfl
    | some s =>
      have htrim : s.trim = "" := by simpa [urlBlank] using hblank
      have hc : ¬(s ≠ "" ∧ s.trim ≠ "") := by simp [htrim]
      simp [create_base_document, hc]

theorem incident_to_doc_attrs_none (r : IncidentRecord) (h : r.attributes = none) :
    incident_to_doc r = none := by
  obtain ⟨oid, oattrs⟩ := r
  cases oattrs with
  | none => rfl
  | some a => simp at h

theorem alert_to_doc_attrs_none (r : AlertRecord) (h : r.attributes = none) :
    alert_to_doc r = none := by
  obtain ⟨oid, oattrs⟩ := r
  cases oattrs with
  | none => rfl
  | some a => simp at h

theorem schedule_to_doc_attrs_none (r : ScheduleRecord) (h : r.attributes = none) :
    schedule_to_doc r = none := by
  obtain ⟨oid, oattrs⟩ := r
  cases oattrs with
  | none => rfl
  | some a => simp at h

theorem escalation_policy_to_doc_attrs_none (r : PolicyRecord)
    (h : r.attributes = none) : escalation_policy_to_doc r = none := by
  obtain ⟨oid, oattrs, osteps⟩ := r
  cases oattrs with
  | none => rfl
  | some a => simp at h

theorem retrospective_to_doc_attrs_none (r : RetroRecord) (h : r.attributes = none) :
    retrospective_to_doc r = none := by
  obtain ⟨oid, oattrs, orel⟩ := r
  cases oattrs with
  | none => rfl
  | some a => simp at h

theorem incident_to_doc_inv (r : IncidentRecord) (d : DocFields)
    (h : incident_to_doc r = some d) :
    ∃ a i, r.attributes = some a ∧ r.id = some i ∧ d.id = i := by
  obtain ⟨oid, oattrs⟩ := r
  cases oattrs with
  | none => simp [incident_to_doc] at h
  | some a =>
    cases oid with
    | none => simp [incident_to_doc] at h
    | some i =>
      refine ⟨a, i, rfl, rfl, ?_⟩
      simp only [incident_to_doc, Option.some.injEq] at h
      subst h
      rfl

theorem incident_to_doc_total (i : String) (a : IncidentAttrs) :
    ∃ d, incident_to_doc ⟨some i, some a⟩ = some d :=
  ⟨_, rfl⟩

theorem incident_doc_props (r : IncidentRecord) (d : DocFields)
    (h : incident_to_doc r = some d) :
    d.view_url ≠ "" ∧ d.permissions.allow_anonymous_access = true
    ∧ ∀ a, r.attributes = some a → urlBlank a.url = true →
        d.view_url = defaultViewUrl "Incident" d.id := by
  obtain ⟨oid, oattrs⟩ := r
  cases oattrs with
  | none => simp [incident_to_doc] at h
  | some a0 =>
    cases oid with
    | none => simp [incident_to_doc] at h
    | some i =>
      simp only [incident_to_doc, Option.some.injEq] at h
      subst h
      obtain ⟨h1, h2, h3⟩ := base_doc_good i "Incident" (incidentTitle a0) a0.url
      refine ⟨h1, h2, ?_⟩
      intro a ha hblank
      obtain rfl : a0 = a := by injection ha
      exact h3 hblank

theorem alert_doc_props (r : AlertRecord) (d : DocFields)
    (h : alert_to_doc r = some d) :
    d.view_url ≠ "" ∧ d.permissions.allow_anonymous_access = true
    ∧ ∀ a, r.attributes = some a → urlBlank a.url = true →
        d.view_url = defaultViewUrl "Alert" d.id := by
  obtain ⟨oid, oattrs⟩ := r
  cases oattrs with
  | none => simp [alert_to_doc] at h
  | some a0 =>
    cases oid with
    | none => simp [alert_to_doc] at h
    | some i =>
      simp only [alert_to_doc, Option.some.injEq] at h
      subst h
      obtain ⟨h1, h2, h3⟩ := base_doc_good i "Alert" (alertTitle (some i) a0) a0.url
      refine ⟨h1, h2, ?_⟩
      intro a ha hblank
      obtain rfl : a0 = a := by injection ha
      exact h3 hblank

theorem schedule_doc_props (r : ScheduleRecord) (d : DocFields)
    (h : schedule_to_doc r = some d) :
    d.view_url ≠ "" ∧ d.permissions.allow_anonymous_access = true
    ∧ ∀ a, r.attributes = some a → urlBlank a.url = true →
        d.view_url = defaultViewUrl "Schedule" d.id := by
  obtain ⟨oid, oattrs⟩ := r
  cases oattrs with
  | none => simp [schedule_to_doc] at h
  | some a0 =>
    cases oid with
    | none => simp [schedule_to_doc] at h
    | some i =>
      simp only [schedule_to_doc, Option.some.injEq] at h
      subst h
      obtain ⟨h1, h2, h3⟩ :=
        base_doc_good i "Schedule" ("[SCHEDULE] " ++ a0.name.getD "No Name") a0.url
      refine ⟨h1, h2, ?_⟩
      intro a ha hblank
      obtain rfl : a0 = a := by injection ha
      exact h3 hblank

theorem escalation_policy_doc_props (r : PolicyRecord) (d : DocFields)
    (h : escalation_policy_to_doc r = some d) :
    d.view_url ≠ "" ∧ d.permissions.allow_anonymous_access = true
    ∧ ∀ a, r.attributes = some a → urlBlank a.url = true →
        d.view_url = defaultViewUrl "EscalationPolicy" d.id := by
  obtain ⟨oid, oattrs, osteps⟩ := r
  cases oattrs with
  | none => simp [escalation_policy_to_doc] at h
  | some a0 =>
    cases oid with
    | none => simp [escalation_policy_to_doc] at h
    | some i =>
      simp only [escalation_policy_to_doc, Option.some.injEq] at h
      subst h
      obtain ⟨h1, h2, h3⟩ :=
        base_doc_good i "EscalationPolicy"
          ("[ESCALATION] " ++ a0.name.getD "No Name") a0.url
      refine ⟨h1, h2, ?_⟩
      intro a ha hblank
      obtain rfl : a0 = a := by injection ha
      exact h3 hblank

theorem retrospective_doc_props (r : RetroRecord) (d : DocFields)
    (h : retrospective_to_doc r = some d) :
    d.view_url ≠ "" ∧ d.permissions.allow_anonymous_access = true
    ∧ ∀ a, r.attributes = some a → urlBlank a.url = true →
        d.view_url = defaultViewUrl "Retrospective" d.id := by
  obtain ⟨oid, oattrs, orel⟩ := r
  cases oattrs with
  | none => simp [retrospective_to_doc] at h
  | some a0 =>
    cases oid with
    | none => simp [retrospective_to_doc] at h
    | some i =>
      simp only [retrospective_to_doc, Option.some.injEq] at h
      subst h
      obtain ⟨h1, h2, h3⟩ :=
        base_doc_good i "Retrospective" (retroTitle ⟨some i, some a0, orel⟩ a0) a0.url
      refine ⟨h1, h2, ?_⟩
      intro a ha hblank
      obtain rfl : a0 = a := by injection ha
      exact h3 hblank

/-! ## Claims C6, C7, C8, C10 -/

/-- Claim C6, counterexample.  The claimed count `N - M` fails for a
record that has attributes but no id key (`incident["id"]` raises, the
mapper returns `None`): one record, zero without attributes, zero output
documents.  The claimed id-absence fails when an attribute-less record
shares its id with a well-formed record: `recordsDupId` has one
attribute-less record with id `a`, yet `a` appears among the output
document ids. -/
theorem c6_counterexample :
    (recordsNoId.length = 1
      ∧ recordsNoId.countP (fun r => r.attributes.isNone) = 0
      ∧ (mapRecords incident_to_doc recordsNoId).length = 0)
    ∧ (recordsDupId.length = 2
      ∧ recordsDupId.countP (fun r => r.attributes.isNone) = 1
      ∧ recordsDupId.head? = some ⟨some "a", none⟩
      ∧ (mapRecords incident_to_doc recordsDupId).map DocFields.id = ["a"]) := by
  decide

/-- Claim C6, amended: each document mapper returns `none` (not an
exception) for a record whose attributes block is absent or empty; and
for a record set of `N` records, `M` of them without attributes, in which
every record having attributes also has an id and no two records share an
id, the mapping stage yields exactly `N - M` documents whose ids avoid
the ids of the `M` attribute-less records. -/
theorem c6_missing_attributes_amended (records : List IncidentRecord)
    (hid : ∀ r ∈ records, r.attributes ≠ none → r.id ≠ none)
    (hdistinct : records.Pairwise (fun r1 r2 => ∀ i, r1.id = some i → r2.id ≠ some i)) :
    (∀ r : IncidentRecord, r.attributes = none → incident_to_doc r = none)
    ∧ (∀ r : AlertRecord, r.attributes = none → alert_to_doc r = none)
    ∧ (∀ r : ScheduleRecord, r.attributes = none → schedule_to_doc r = none)
    ∧ (∀ r : PolicyRecord, r.attributes = none → escalation_policy_to_doc r = none)
    ∧ (∀ r : RetroRecord, r.attributes = none → retrospective_to_doc r = none)
    ∧ (mapRecords incident_to_doc records).length
        + records.countP (fun r => r.attributes.isNone) = records.length
    ∧ (mapRecords incident_to_doc records).length
        = records.length - records.countP (fun r => r.attributes.isNone)
    ∧ (∀ r ∈ records, r.attributes = none → ∀ i, r.id = some i →
        ∀ d ∈ mapRecords incident_to_doc records, d.id ≠ i) := by
  have hcount : ∀ l : List IncidentRecord,
      (∀ r ∈ l, r.attributes ≠ none → r.id ≠ none) →
      (l.filterMap incident_to_doc).length
        + l.countP (fun r => r.attributes.isNone) = l.length := by
    intro l
    induction l with
    | nil => simp
    | cons r rs ih =>
      intro hl
      have htail := ih (fun x hx => hl x (List.mem_cons_of_mem _ hx))
      cases hattrs : r.attributes with
      | none =>
        rw [List.filterMap_cons_none (incident_to_doc_attrs_none r hattrs),
          List.countP_cons]
        simp only [hattrs, Option.isNone_none, List.length_cons, if_pos]
        omega
      | some a =>
        have hidr := hl r (List.mem_cons_self _ _) (by simp [hattrs])
        obtain ⟨i, hi⟩ : ∃ i, r.id = some i := by
          cases hr : r.id with
          | none => exact absurd hr hidr
          | some i => exact ⟨i, rfl⟩
        obtain ⟨dval, hdoc⟩ : ∃ dv, incident_to_doc r = some dv := by
          obtain ⟨oid, oattrs⟩ := r
          simp only at hattrs hi
          subst hattrs
          subst hi
          exact ⟨_, rfl⟩
        rw [List.filterMap_cons_some hdoc, List.countP_cons]
        simp only [hattrs, Option.isNone_some, List.length_cons,
          Bool.false_eq_true, if_false]
        omega
  refine ⟨incident_to_doc_attrs_none, alert_to_doc_attrs_none,
    schedule_to_doc_attrs_none, escalation_policy_to_doc_attrs_none,
    retrospective_to_doc_attrs_none, ?_, ?_, ?_⟩
  · rw [mapRecords_eq_filterMap]
    exact hcount records hid
  · rw [mapRecords_eq_filterMap]
    have := hcount records hid
    omega
  · intro r hr hattrs i hi d hd
    intro hcon
    rw [mapRecords_eq_filterMap] at hd
    obtain ⟨r2, hr2, hconv⟩ := List.mem_filterMap.mp hd
    obtain ⟨a2, i2, hattrs2, hid2, hdid⟩ := incident_to_doc_inv r2 d hconv
    have hne : r ≠ r2 := by
      intro hEq
      rw [hEq, hattrs2] at hattrs
      exact Option.noConfusion hattrs
    have hsymm : Symmetric (fun r1 r2 : IncidentRecord =>
        ∀ i, r1.id = some i → r2.id ≠ some i) := by
      intro x y hxy j hyj hxj
      exact hxy j hxj hyj
    have hR := List.Pairwise.forall hsymm hdistinct hr hr2 hne
    exact hR i hi (by rw [hid2, ← hdid, hcon])

/-- Claim C6 amended, witness: two records with distinct ids, one of
them attribute-less, map to exactly one document. -/
theorem c6_missing_attributes_amended_witness :
    (mapRecords incident_to_doc recordsWitness).length
      + recordsWitness.countP (fun r => r.attributes.isNone)
      = recordsWitness.length :=
  (c6_missing_attributes_amended recordsWitness (by decide)
      (by
        refine List.Pairwise.cons ?_ (List.Pairwise.cons (by simp) List.Pairwise.nil)
        intro b hb
        simp only [recordsWitness, List.mem_singleton] at hb
        subst hb
        intro i h1
        injection h1 with h2
        subst h2
        simp [recordsWitness])).2.2.2.2.2.1

/-- Claim C7: an incident record titled `DB outage` with sequential id
42 and status `resolved` and no source URL maps to a document titled
`[INC-42] DB outage`, tagged `status:resolved`, whose view URL is the
incidents default built from the record id. -/
theorem c7_incident_scenario (i : String) (sev : Option SeverityAttrs)
    (kind summ ca ua : Option String) :
    ∃ d,
      incident_to_doc
        ⟨some i,
          some { title := some "DB outage", sequential_id := some 42,
                 status := some "resolved", url := none, kind := kind,
                 summary := summ, severity := sev,
                 created_at := ca, updated_at := ua }⟩ = some d
      ∧ d.title = "[INC-42] DB outage"
      ∧ "status:resolved" ∈ d.tags
      ∧ d.view_url = "https://rootly.com/account/incidents/" ++ i := by
  refine ⟨_, rfl, rfl, ?_, rfl⟩
  show "status:resolved" ∈
    incidentStatusTags _ ++ incidentSeverityTags _ ++ incidentKindTags _
  have hst : incidentStatusTags
      { title := some "DB outage", sequential_id := some 42,
        status := some "resolved", url := none, kind := kind,
        summary := summ, severity := sev,
        created_at := ca, updated_at := ua } = ["status:resolved"] := rfl
  rw [hst]
  exact List.mem_append_left _ (List.mem_cons_self _ _)

/-- Claim C8: timestamp extraction maps each of `created_at` /
`updated_at` that parses as ISO-8601 to its integer epoch-seconds value,
omits each field whose value is absent or fails to parse (no exception
escapes: the embedding is a total function), and evaluates correctly on
known anchors. -/
theorem c8_timestamp_extraction (ca ua : Option String) :
    (∀ s t, ca = some s → isoparse_timestamp s = some t →
      (extract_timestamps ca ua).created_at = some t)
    ∧ (∀ s, ca = some s → isoparse_timestamp s = none →
      (extract_timestamps ca ua).created_at = none)
    ∧ (ca = none → (extract_timestamps ca ua).created_at = none)
    ∧ (∀ s t, ua = some s → isoparse_timestamp s = some t →
      (extract_timestamps ca ua).updated_at = some t)
    ∧ (∀ s, ua = some s → isoparse_timestamp s = none →
      (extract_timestamps ca ua).updated_at = none)
    ∧ (ua = none → (extract_timestamps ca ua).updated_at = none)
    ∧ extract_timestamps (some "2024-01-15T10:30:00Z")
        (some "2024-01-15T10:30:00+05:30")
        = { created_at := some 1705314600, updated_at := some 1705294800 }
    ∧ extract_timestamps (some "not-a-date") (some "2024-13-01T00:00:00Z")
        = { created_at := none, updated_at := none } := by
  have hfield : ∀ v : Option String,
      (∀ s t, v = some s → isoparse_timestamp s = some t → parseTsField v = some t)
      ∧ (∀ s, v = some s → isoparse_timestamp s = none → parseTsField v = none)
      ∧ (v = none → parseTsField v = none) := by
    intro v
    refine ⟨?_, ?_, ?_⟩
    · intro s t hv hp
      subst hv
      by_cases hs : s = ""
      · subst hs
        rw [show isoparse_timestamp "" = none from rfl] at hp
        exact Option.noConfusion hp
      · simp [parseTsField, hs, hp]
    · intro s hv hp
      subst hv
      by_cases hs : s = ""
      · simp [parseTsField, hs]
      · simp [parseTsField, hs, hp]
    · intro hv
      subst hv
      rfl
  refine ⟨?_, ?_, ?_, ?_, ?_, ?_, by decide, by decide⟩
  · intro s t hv hp
    show parseTsField ca = some t
    exact (hfield ca).1 s t hv hp
  · intro s hv hp
    exact (hfield ca).2.1 s hv hp
  · intro hv
    exact (hfield ca).2.2 hv
  · intro s t hv hp
    exact (hfield ua).1 s t hv hp
  · intro s hv hp
    exact (hfield ua).2.1 s hv hp
  · intro hv
    exact (hfield ua).2.2 hv

/-- Claim C8, witness: a valid anchor string is extracted to its epoch
value; an invalid one is omitted. -/
theorem c8_timestamp_extraction_witness :
    (extract_timestamps (some "2024-01-15T10:30:00Z") (some "nope")).created_at
      = some 1705314600
    ∧ (extract_timestamps (some "2024-01-15T10:30:00Z") (some "nope")).updated_at
      = none :=
  ⟨(c8_timestamp_extraction (some "2024-01-15T10:30:00Z") (some "nope")).1
      "2024-01-15T10:30:00Z" 1705314600 rfl (by decide),
    (c8_timestamp_extraction (some "2024-01-15T10:30:00Z") (some "nope")).2.2.2.2.1
      "nope" rfl (by decide)⟩

/-- Claim C10: every document produced by any of the five mappers has a
non-empty view URL and the anonymous-access permission, and whenever the
source URL is absent or blank the view URL is the generated default
`https://rootly.com/account/` plus type plural plus `/` plus the record
id. -/
theorem c10_view_url_permissions :
    (∀ (r : IncidentRecord) (d : DocFields), incident_to_doc r = some d →
      d.view_url ≠ "" ∧ d.permissions.allow_anonymous_access = true)
    ∧ (∀ (r : IncidentRecord) (d : DocFields) (a : IncidentAttrs),
        incident_to_doc r = some d → r.attributes = some a → urlBlank a.url = true →
          d.view_url = defaultViewUrl "Incident" d.id)
    ∧ (∀ (r : AlertRecord) (d : DocFields), alert_to_doc r = some d →
        d.view_url ≠ "" ∧ d.permissions.allow_anonymous_access = true)
    ∧ (∀ (r : AlertRecord) (d : DocFields) (a : AlertAttrs),
        alert_to_doc r = some d → r.attributes = some a → urlBlank a.url = true →
          d.view_url = defaultViewUrl "Alert" d.id)
    ∧ (∀ (r : ScheduleRecord) (d : DocFields), schedule_to_doc r = some d →
        d.view_url ≠ "" ∧ d.permissions.allow_anonymous_access = true)
    ∧ (∀ (r : ScheduleRecord) (d : DocFields) (a : ScheduleAttrs),
        schedule_to_doc r = some d → r.attributes = some a → urlBlank a.url = true →
          d.view_url = defaultViewUrl "Schedule" d.id)
    ∧ (∀ (r : PolicyRecord) (d : DocFields), escalation_policy_to_doc r = some d →
        d.view_url ≠ "" ∧ d.permissions.allow_anonymous_access = true)
    ∧ (∀ (r : PolicyRecord) (d : DocFields) (a : PolicyAttrs),
        escalation_policy_to_doc r = some d → r.attributes = some a →
          urlBlank a.url = true → d.view_url = defaultViewUrl "EscalationPolicy" d.id)
    ∧ (∀ (r : RetroRecord) (d : DocFields), retrospective_to_doc r = some d →
        d.view_url ≠ "" ∧ d.permissions.allow_anonymous_access = true)
    ∧ (∀ (r : RetroRecord) (d : DocFields) (a : RetroAttrs),
        retrospective_to_doc r = some d → r.attributes = some a →
          urlBlank a.url = true → d.view_url = defaultViewUrl "Retrospective" d.id) :=
  ⟨fun r d h => ⟨(incident_doc_props r d h).1, (incident_doc_props r d h).2.1⟩,
    fun r d a h ha hb => (incident_doc_props r d h).2.2 a ha hb,
    fun r d h => ⟨(alert_doc_props r d h).1, (alert_doc_props r d h).2.1⟩,
    fun r d a h ha hb => (alert_doc_props r d h).2.2 a ha hb,
    fun r d h => ⟨(schedule_doc_props r d h).1, (schedule_doc_props r d h).2.1⟩,
    fun r d a h ha hb => (schedule_doc_props r d h).2.2 a ha hb,
    fun r d h => ⟨(escalation_policy_doc_props r d h).1,
      (escalation_policy_doc_props r d h).2.1⟩,
    fun r d a h ha hb => (escalation_policy_doc_props r d h).2.2 a ha hb,
    fun r d h => ⟨(retrospective_doc_props r d h).1,
      (retrospective_doc_props r d h).2.1⟩,
    fun r d a h ha hb => (retrospective_doc_props r d h).2.2 a ha hb⟩

/-- Claim C10, witness: a concrete incident record without a source URL
maps to a document with a non-empty default view URL and anonymous
access. -/
theorem c10_view_url_permissions_witness :
    incident_to_doc sampleIncident = some sampleIncidentDoc
    ∧ sampleIncidentDoc.view_url ≠ ""
    ∧ sampleIncidentDoc.permissions.allow_anonymous_access = true
    ∧ sampleIncidentDoc.view_url = defaultViewUrl "Incident" sampleIncidentDoc.id :=
  ⟨rfl,
    (c10_view_url_permissions.1 sampleIncident sampleIncidentDoc rfl).1,
    (c10_view_url_permissions.1 sampleIncident sampleIncidentDoc rfl).2,
    c10_view_url_permissions.2.1 sampleIncident sampleIncidentDoc
      { blankIncidentAttrs with title := some "DB outage" } rfl rfl rfl⟩

end RootlyGlean
